import Mathlib

/-!
# Verification of the tic-tac-toe room/game logic

Shallow embedding of the repository's game logic:

* `RoomHandler` (backend room/game state machine, file `roomHandler`):
  constructor, `addUser`, `updateState`, `makeMove`, `checkWinner`,
  `declareResult`, `updateDB`, plus the in-memory `Game` record.
* The socket `make-move` handler flow (`SocketHandler.ts`): a successful
  `makeMove` is followed by `updateState`, a DB checkpoint, a
  `checkWinner` evaluation and, when an outcome exists, `declareResult`.

JavaScript strings holding the 9-cell board are embedded as `List Char`
(`'_'` = empty cell); the `"X" | "O"` union type as the inductive `Symbol`;
`randomUUID()` / environment reads become explicit parameters; the Prisma
store becomes an explicit `DB` value threaded through the persistence calls.
Fallible operations return their result record exactly as the source
shapes it (`{success, newState?, error?}` for `makeMove`, a boolean for
`addUser`).
-/

namespace TicTacToe

/-- The `"X" | "O"` union type of player symbols. -/
inductive Symbol where
  | X : Symbol
  | O : Symbol
deriving DecidableEq, Repr

/-- The character a symbol contributes to the 9-character board string. -/
def Symbol.char : Symbol → Char
  | Symbol.X => 'X'
  | Symbol.O => 'O'

/-- `this.game.currentPlayer === "X" ? "O" : "X"` — the turn switch. -/
def Symbol.flip : Symbol → Symbol
  | Symbol.X => Symbol.O
  | Symbol.O => Symbol.X

/-- The in-memory `User` record: `{id, name, symbol}`. -/
structure User where
  id : String
  name : String
  symbol : Symbol
deriving DecidableEq, Repr

/-- The in-memory `Game` record owned by a `RoomHandler`.
The board `state` is the 9-character string, embedded as `List Char`. -/
structure Game where
  gameId : String
  users : List User
  state : List Char
  gameCode : String
  gameUrl : String
  winner : Option String
  currentPlayer : Symbol
deriving DecidableEq, Repr

/-- The `RoomHandler` constructor: creates the first user (the creator,
always `X`), an all-empty 9-cell board, and sets `currentPlayer` to `X`.
The `randomUUID()` calls and the `SERVER_URL` environment read are passed
in as the explicit parameters `gameId`, `creatorId` and `baseUrl`. -/
def mkRoomHandler (userName gameCode gameId creatorId baseUrl : String) : Game :=
  { gameId := gameId
    users := [{ id := creatorId, name := userName, symbol := Symbol.X }]
    state := ['_', '_', '_', '_', '_', '_', '_', '_', '_']
    gameCode := gameCode
    gameUrl := baseUrl ++ "/game/" ++ gameCode
    winner := none
    currentPlayer := Symbol.X }

/-- `RoomHandler.addUser`: if fewer than two users are present, the incoming
user is pushed with its symbol overwritten to `O` and `true` is returned;
otherwise the room is full, nothing changes and `false` is returned. -/
def addUser (g : Game) (u : User) : Game × Bool :=
  if g.users.length < 2 then
    ({ g with users := g.users ++ [{ u with symbol := Symbol.O }] }, true)
  else
    (g, false)

/-- `RoomHandler.updateState`: overwrite the local board state. -/
def updateState (g : Game) (newState : List Char) : Game :=
  { g with state := newState }

/-- The result record of `makeMove`: `{success, newState?, error?}`. -/
structure MoveResult where
  success : Bool
  newState : Option (List Char)
  error : Option String
deriving DecidableEq, Repr

/-- `RoomHandler.makeMove`: validates the position range, then cell
occupancy, then that the player exists, then the turn; on success writes the
symbol into a copy of the board, flips `currentPlayer`, and returns the new
board string.  The room's stored `state` is never written here.  JavaScript
out-of-bounds indexing (`state[position]` being `undefined`, which is
`!== "_"`) is mirrored by `List.get?` returning `none`. -/
def makeMove (g : Game) (position : Int) (playerId : String) :
    Game × MoveResult :=
  if position < 0 ∨ position > 8 then
    (g, { success := false, newState := none, error := some "Invalid position" })
  else if g.state.get? position.toNat ≠ some '_' then
    (g, { success := false, newState := none,
          error := some "Position already occupied" })
  else
    match g.users.find? (fun u => u.id = playerId) with
    | none =>
        (g, { success := false, newState := none,
              error := some "Player not found" })
    | some player =>
        if player.symbol ≠ g.currentPlayer then
          (g, { success := false, newState := none,
                error := some "Not your turn" })
        else
          ({ g with currentPlayer := g.currentPlayer.flip },
           { success := true,
             newState := some (g.state.set position.toNat player.symbol.char),
             error := none })

/-- The eight winning index triples of `checkWinner`:
three rows, three columns, two diagonals, in source order. -/
def winningCombinations : List (Nat × Nat × Nat) :=
  [(0, 1, 2), (3, 4, 5), (6, 7, 8),
   (0, 3, 6), (1, 4, 7), (2, 5, 8),
   (0, 4, 8), (2, 4, 6)]

/-- The loop body condition of `checkWinner` on one combination:
`state[a] !== "_" && state[a] === state[b] && state[b] === state[c]`.
Out-of-range cells read as `none`, matching JavaScript `undefined`
(`undefined !== "_"` is true and `undefined === undefined` is true). -/
def comboHit (s : List Char) (t : Nat × Nat × Nat) : Bool :=
  (s.get? t.1 ≠ some '_') ∧ s.get? t.1 = s.get? t.2.1 ∧
    s.get? t.2.1 = s.get? t.2.2

/-- The `checkWinner` loop over the combinations, then the draw check:
the first hit combination returns its cell content (`state[a] || null`
yields `null` when the cell is `undefined`); if no combination hits,
`"draw"` when no `"_"` remains, else `null`. -/
def checkWinnerAux : List (Nat × Nat × Nat) → List Char → Option String
  | [], s => if s.contains '_' then none else some "draw"
  | t :: rest, s =>
      if comboHit s t then
        match s.get? t.1 with
        | some c => some (String.mk [c])
        | none => none
      else checkWinnerAux rest s

/-- `checkWinner` as a function of the board string. -/
def boardWinner (s : List Char) : Option String :=
  checkWinnerAux winningCombinations s

/-- `RoomHandler.checkWinner`: evaluates `this.game.state`. -/
def checkWinner (g : Game) : Option String :=
  boardWinner g.state

/-- A durable `Game` row: the fields `declareResult` and `updateDB`
write (`state` and `winner`). -/
structure GameRow where
  state : List Char
  winner : Option String
deriving DecidableEq, Repr

/-- A durable `User` row: display name and cumulative score, linked to a
game.  The leaderboard aggregates `score` by `name`; rows are keyed here by
user id. -/
structure UserRow where
  name : String
  gameId : String
  score : Nat
deriving DecidableEq, Repr

/-- The durable store: the `Game` table keyed by game id and the `User`
table keyed by user id. -/
structure DB where
  games : List (String × GameRow)
  users : List (String × UserRow)
deriving DecidableEq, Repr

/-- `RoomHandler.updateDB`: `prisma.game.update({where: {id}, data: {state}})`
— overwrite the matching game row's board state. -/
def dbUpdateState (db : DB) (gameId : String) (state : List Char) : DB :=
  { db with
    games := db.games.map fun p =>
      if p.1 = gameId then (p.1, { p.2 with state := state }) else p }

/-- `RoomHandler.declareResult`: set `this.game.winner`, then
`prisma.game.update({where: {id: gameId}, data: {state, winner}})`.
No other table is touched. -/
def declareResult (g : Game) (db : DB) (winner : String) : Game × DB :=
  ({ g with winner := some winner },
   { db with
     games := db.games.map fun p =>
       if p.1 = g.gameId then (p.1, { state := g.state, winner := some winner })
       else p })

/-- The cumulative score of a durable user row, by user id. -/
def scoreOf (db : DB) (userId : String) : Option Nat :=
  (db.users.lookup userId).map UserRow.score

/-- The `make-move` socket handler flow for one move: `makeMove`, and on
success `updateState` with the returned string (`newState || ""`), the DB
checkpoint `updateDB`, then `checkWinner`; a non-null winner triggers
`declareResult`.  On failure only the error is surfaced and nothing
changes. -/
def handleMove (g : Game) (db : DB) (position : Int) (playerId : String) :
    Game × DB × MoveResult :=
  let r := makeMove g position playerId
  if r.2.success then
    let g2 := updateState r.1 (r.2.newState.getD [])
    let db2 := dbUpdateState db g2.gameId g2.state
    match checkWinner g2 with
    | some w =>
        let r3 := declareResult g2 db2 w
        (r3.1, r3.2, r.2)
    | none => (g2, db2, r.2)
  else (r.1, db, r.2)

/-- Folding the `make-move` handler over a list of `(position, playerId)`
intents. -/
def handleMoves (g : Game) (db : DB) : List (Int × String) → Game × DB
  | [] => (g, db)
  | m :: rest =>
      let r := handleMove g db m.1 m.2
      handleMoves r.1 r.2.1 rest

/-- One client-side step of the spec's move loop: `makeMove` followed, on
success, by `updateState` with the returned board (`newState || ""`). -/
def processMove (g : Game) (m : Int × String) : Game :=
  let r := makeMove g m.1 m.2
  if r.2.success then updateState r.1 (r.2.newState.getD []) else r.1

/-- Folding `processMove` over a list of move attempts while counting the
successful ones. -/
def processMoves (g : Game) : List (Int × String) → Game × Nat
  | [] => (g, 0)
  | m :: rest =>
      let r := makeMove g m.1 m.2
      if r.2.success then
        let p := processMoves (updateState r.1 (r.2.newState.getD [])) rest
        (p.1, p.2 + 1)
      else processMoves r.1 rest
/-- How `assignSymbols` hands out symbols on hydration: the first persisted
user is `X`, every later one `O` (the convention of the constructor and of
the REST layer's index-based symbol mapping). -/
def assignSymbols : Nat → List (String × String) → List User
  | _, [] => []
  | i, (uid, uname) :: rest =>
      { id := uid, name := uname,
        symbol := if i = 0 then Symbol.X else Symbol.O }
        :: assignSymbols (i + 1) rest

/-- Modelled from the spec: `RoomHandler.loadFromDatabase` is invoked by the
`join-room` socket handler on a cache miss, but its definition is absent
from the provided sources.  Per spec §4.2 `hydrate`, it reconstructs the
in-memory state from the durable snapshot — game id, board and players are
copied over, and `turn` is recomputed by counting non-Empty cells (even
count ⇒ X's turn, odd ⇒ O's turn), since turn is not persisted. -/
def loadFromDatabase (g : Game) (gameId : String) (state : List Char)
    (dbUsers : List (String × String)) : Game :=
  { g with
    gameId := gameId
    state := state
    users := assignSymbols 0 dbUsers
    currentPlayer :=
      if state.countP (fun c => c ≠ '_') % 2 = 0 then Symbol.X else Symbol.O }

/-- A combination from the list `L` whose three cells all hold the
symbol's character. -/
def lineIn (s : List Char) (L : List (Nat × Nat × Nat))
    (sym : Symbol) : Prop :=
  ∃ t ∈ L, s.get? t.1 = some sym.char ∧ s.get? t.2.1 = some sym.char ∧
    s.get? t.2.2 = some sym.char

/-- One of the 8 winning lines fully held by the symbol: three equal
non-empty cells of that symbol. -/
def winningLine (s : List Char) (sym : Symbol) : Prop :=
  lineIn s winningCombinations sym

/-- The 9-cell board holding `sym` on the cells of combination `t` and
empty everywhere else. -/
def lineOnlyBoard (t : Nat × Nat × Nat) (sym : Symbol) : List Char :=
  (((List.replicate 9 '_').set t.1 sym.char).set t.2.1
      sym.char).set t.2.2 sym.char

/-! ## Concrete scenario material

A two-player room (Alice = `X`, creator; Bob = `O`) with its durable rows,
and the spec's winning move sequence `X:0, O:3, X:1, O:4, X:2` replayed
through the socket `make-move` handler flow. -/

/-- Alice's fresh room. -/
def roomA : Game := mkRoomHandler "Alice" "CODE" "gid" "a" "http://localhost:3200"

/-- The room after Bob joined (second player, assigned `O`). -/
def roomAB : Game :=
  (addUser roomA { id := "b", name := "Bob", symbol := Symbol.X }).1

/-- The durable rows backing `roomAB`: the game row and both user rows,
each with cumulative score `0`. -/
def dbAB : DB :=
  { games := [("gid", { state := roomA.state, winner := none })],
    users := [("a", { name := "Alice", gameId := "gid", score := 0 }),
              ("b", { name := "Bob", gameId := "gid", score := 0 })] }

/-- The room and store after the winning sequence `X:0, O:3, X:1, O:4, X:2`
runs through the `make-move` handler flow. -/
def wonRun : Game × DB :=
  handleMoves roomAB dbAB [(0, "a"), (3, "b"), (1, "a"), (4, "b"), (2, "a")]

/-! ## Helper lemmas shared between claims -/

/-- Flipping the turn twice is the identity. -/
theorem Symbol.flip_flip (s : Symbol) : s.flip.flip = s := by
  cases s <;> rfl

/-- A successful `makeMove` returns the room with only `currentPlayer`
flipped. -/
theorem makeMove_success_eq (g : Game) (pos : Int) (playerId : String)
    (hs : (makeMove g pos playerId).2.success = true) :
    (makeMove g pos playerId).1 =
      { g with currentPlayer := g.currentPlayer.flip } := by
  unfold makeMove at hs ⊢
  split
  · simp_all
  · split
    · simp_all
    · split
      · simp_all
      · split
        · simp_all
        · rfl

/-- A failed `makeMove` returns the room unchanged. -/
theorem makeMove_fail_eq (g : Game) (pos : Int) (playerId : String)
    (hf : (makeMove g pos playerId).2.success = false) :
    (makeMove g pos playerId).1 = g := by
  unfold makeMove at hf ⊢
  split
  · rfl
  · split
    · rfl
    · split
      · rfl
      · split
        · rfl
        · simp_all

/-- `assignSymbols` keeps exactly the persisted ids and names, in order. -/
theorem assignSymbols_ids_names :
    ∀ (n : Nat) (l : List (String × String)),
      (assignSymbols n l).map (fun u => (u.id, u.name)) = l := by
  intro n l
  induction l generalizing n with
  | nil => rfl
  | cons p rest ih => simp [assignSymbols, ih]

/-- After `processMoves`, the turn is the starting turn flipped once per
successful move: unchanged when the success count is even, flipped when it
is odd. -/
theorem processMoves_currentPlayer (moves : List (Int × String)) :
    ∀ g : Game,
      (processMoves g moves).1.currentPlayer =
        if Even (processMoves g moves).2 then g.currentPlayer
        else g.currentPlayer.flip := by
  induction moves with
  | nil =>
      intro g
      simp [processMoves]
  | cons m rest ih =>
      intro g
      by_cases hs : (makeMove g m.1 m.2).2.success = true
      · have hcur : (updateState (makeMove g m.1 m.2).1
            ((makeMove g m.1 m.2).2.newState.getD [])).currentPlayer =
              g.currentPlayer.flip := by
          rw [makeMove_success_eq g m.1 m.2 hs]
          rfl
        simp only [processMoves, if_pos hs]
        rw [ih, hcur]
        by_cases he : Even (processMoves (updateState (makeMove g m.1 m.2).1
            ((makeMove g m.1 m.2).2.newState.getD [])) rest).2
        · simp [he, Nat.even_add_one]
        · simp [he, Nat.even_add_one, Symbol.flip_flip]
      · have hf : (makeMove g m.1 m.2).2.success = false :=
          Bool.eq_false_iff.mpr hs
        have hg : (makeMove g m.1 m.2).1 = g := makeMove_fail_eq g m.1 m.2 hf
        simp only [processMoves, if_neg hs]
        rw [ih, hg]

/-! ## Claims -/

/-- C3 (confirmed): in every room holding at least one player (which every
constructed room does — the constructor installs the creator), calling
`addUser` twice with the same user changes the player count by at most 1,
the second call is a no-op returning the room unchanged, and in particular
the symbol assigned by the first call is never reassigned. -/
theorem addUser_idempotent (g : Game) (u v : User) (h : g.users ≠ [])
    (hid : v.id = u.id) :
    (addUser (addUser g u).1 v).1 = (addUser g u).1 ∧
      (addUser (addUser g u).1 v).1.users.length ≤ g.users.length + 1 := by
  have hlen : 0 < g.users.length := List.length_pos.mpr h
  have key : ∀ (g' : Game) (w : User), ¬g'.users.length < 2 →
      addUser g' w = (g', false) := by
    intro g' w hg'
    simp [addUser, hg']
  by_cases h2 : g.users.length < 2
  · have e1 : addUser g u =
        ({ g with users := g.users ++ [{ u with symbol := Symbol.O }] }, true) := by
      simp [addUser, h2]
    have hlen2 : (addUser g u).1.users.length = g.users.length + 1 := by
      rw [e1]
      simp
    have hfull : ¬(addUser g u).1.users.length < 2 := by omega
    rw [key _ v hfull]
    refine ⟨rfl, ?_⟩
    show (addUser g u).1.users.length ≤ g.users.length + 1
    omega
  · rw [key g u h2]
    show (addUser g v).1 = g ∧ (addUser g v).1.users.length ≤ g.users.length + 1
    rw [key g v h2]
    exact ⟨rfl, Nat.le_succ _⟩

/-- Witness for C3: on Alice's fresh room, adding Bob twice leaves exactly
the state after the first addition, and the count grew from 1 by at most 1. -/
theorem addUser_idempotent_witness :
    (addUser (addUser roomA { id := "b", name := "Bob", symbol := Symbol.X }).1
        { id := "b", name := "Bob", symbol := Symbol.X }).1 =
      (addUser roomA { id := "b", name := "Bob", symbol := Symbol.X }).1 ∧
    (addUser (addUser roomA { id := "b", name := "Bob", symbol := Symbol.X }).1
        { id := "b", name := "Bob", symbol := Symbol.X }).1.users.length ≤
      roomA.users.length + 1 :=
  addUser_idempotent roomA { id := "b", name := "Bob", symbol := Symbol.X }
    { id := "b", name := "Bob", symbol := Symbol.X } (by decide) rfl

/-- C8 (confirmed): game-logic failures are atomic — whenever `makeMove`
fails (out-of-range position, occupied cell, unknown player, wrong turn) or
`addUser` fails (room full), the room value, hence its board string, turn,
player list and winner, is exactly what it was before the call. -/
theorem failed_calls_leave_room_unchanged (g : Game) (pos : Int)
    (playerId : String) (u : User) :
    ((makeMove g pos playerId).2.success = false →
      (makeMove g pos playerId).1 = g) ∧
    ((addUser g u).2 = false → (addUser g u).1 = g) := by
  constructor
  · intro hf
    unfold makeMove at hf ⊢
    split
    · rfl
    · split
      · rfl
      · split
        · rfl
        · split
          · rfl
          · simp_all
  · intro hf
    unfold addUser at hf ⊢
    split
    · simp_all [addUser]
    · rfl

/-- Witness for C8: Bob moving out of range on the fresh two-player room
fails and leaves the room unchanged, and adding a third user to the full
room fails and leaves it unchanged. -/
theorem failed_calls_leave_room_unchanged_witness :
    (makeMove roomAB 9 "b").1 = roomAB ∧
      (addUser roomAB { id := "c", name := "Carol", symbol := Symbol.X }).1 =
        roomAB :=
  ⟨(failed_calls_leave_room_unchanged roomAB 9 "b"
      { id := "c", name := "Carol", symbol := Symbol.X }).1 (by decide),
   (failed_calls_leave_room_unchanged roomAB 9 "b"
      { id := "c", name := "Carol", symbol := Symbol.X }).2 (by decide)⟩

/-- C4 counterexample: in the fresh two-player room the turn is `X` and
Bob's symbol is `O`, yet Bob's move at the out-of-range position 9 is
rejected with `"Invalid position"`, not `"Not your turn"` — the range check
runs before the turn check, refuting "rejected with NotYourTurn ...
regardless of whether the target position is out of range". -/
theorem wrong_turn_out_of_range_counterexample :
    roomAB.currentPlayer = Symbol.X ∧
      roomAB.users.find? (fun u => u.id = "b") =
        some { id := "b", name := "Bob", symbol := Symbol.O } ∧
      (makeMove roomAB 9 "b").2.error = some "Invalid position" ∧
      some "Invalid position" ≠ some "Not your turn" := by
  refine ⟨rfl, by decide, by decide, by decide⟩

/-- C4 (corrected, amended): a move by a player whose symbol differs from
the current turn is rejected with `NotYourTurn` whenever the position is in
range, the target cell is empty and the player is in the room; the
out-of-range and occupied-cell checks take precedence over the turn
check. -/
theorem not_your_turn_when_cell_valid (g : Game) (pos : Int)
    (playerId : String) (p : User) (hr : ¬(pos < 0 ∨ pos > 8))
    (hc : g.state.get? pos.toNat = some '_')
    (hp : g.users.find? (fun u => u.id = playerId) = some p)
    (ht : p.symbol ≠ g.currentPlayer) :
    (makeMove g pos playerId).2 =
      { success := false, newState := none, error := some "Not your turn" } := by
  simp only [makeMove, if_neg hr, if_neg (not_not_intro hc), hp, if_pos ht]

/-- Witness for C4's amended theorem: Bob (symbol `O`) moving at the empty
in-range cell 0 while the turn is `X` is rejected with `"Not your turn"`. -/
theorem not_your_turn_when_cell_valid_witness :
    (makeMove roomAB 0 "b").2 =
      { success := false, newState := none, error := some "Not your turn" } :=
  not_your_turn_when_cell_valid roomAB 0 "b"
    { id := "b", name := "Bob", symbol := Symbol.O }
    (by decide) (by decide) (by decide) (by decide)

/-- C10 (confirmed): `makeMove` never writes the room's stored board — on
success it only flips `currentPlayer` and hands the new board string back,
the stored `state` changing only when `updateState` is called with that
string; a failed `makeMove` changes nothing at all. -/
theorem makeMove_leaves_board_to_updateState (g : Game) (pos : Int)
    (playerId : String) (s : List Char) :
    (makeMove g pos playerId).1.state = g.state ∧
    ((makeMove g pos playerId).2.success = true →
      (makeMove g pos playerId).1 =
        { g with currentPlayer := g.currentPlayer.flip }) ∧
    ((makeMove g pos playerId).2.success = false →
      (makeMove g pos playerId).1 = g) ∧
    (updateState g s).state = s := by
  refine ⟨?_, ?_, ?_, rfl⟩
  · unfold makeMove
    split
    · rfl
    · split
      · rfl
      · split
        · rfl
        · split
          · rfl
          · rfl
  · intro hs
    unfold makeMove at hs ⊢
    split
    · simp_all
    · split
      · simp_all
      · split
        · simp_all
        · split
          · simp_all
          · rfl
  · intro hs
    unfold makeMove at hs ⊢
    split
    · rfl
    · split
      · rfl
      · split
        · rfl
        · split
          · rfl
          · simp_all

/-- Witness for C10: Alice's successful opening move at cell 0 leaves the
stored board untouched and only flips the turn; `updateState` with the
returned string then installs it. -/
theorem makeMove_leaves_board_to_updateState_witness :
    (makeMove roomAB 0 "a").1.state = roomAB.state ∧
      (makeMove roomAB 0 "a").1 =
        { roomAB with currentPlayer := roomAB.currentPlayer.flip } :=
  ⟨(makeMove_leaves_board_to_updateState roomAB 0 "a" []).1,
   (makeMove_leaves_board_to_updateState roomAB 0 "a" []).2.1 (by decide)⟩

/-- C7 (confirmed): the turn strictly alternates — in a freshly constructed
room the turn starts at `X`, and after processing any list of move attempts
(each successful one applied via `makeMove` followed by `updateState`) the
current turn is `X` exactly when the number of successful moves is even,
hence `O` when it is odd. -/
theorem turn_alternates (userName gameCode gameId creatorId baseUrl : String)
    (moves : List (Int × String)) :
    ((processMoves (mkRoomHandler userName gameCode gameId creatorId baseUrl)
        moves).1.currentPlayer = Symbol.X ↔
      Even (processMoves (mkRoomHandler userName gameCode gameId creatorId
        baseUrl) moves).2) := by
  rw [processMoves_currentPlayer]
  have hstart : (mkRoomHandler userName gameCode gameId creatorId
      baseUrl).currentPlayer = Symbol.X := rfl
  by_cases he : Even (processMoves (mkRoomHandler userName gameCode gameId
      creatorId baseUrl) moves).2
  · simp [he, hstart]
  · simp only [if_neg he, hstart]
    constructor
    · intro hx
      exact absurd hx (by decide)
    · intro hx
      exact absurd hx he

/-- C9 (confirmed): a successful `makeMove` on a 9-character board returns a
9-character board that holds the moving player's symbol at the moved
position and agrees with the previous board everywhere else. -/
theorem move_writes_single_cell (g : Game) (pos : Int) (playerId : String)
    (hs : (makeMove g pos playerId).2.success = true)
    (hLen : g.state.length = 9) :
    ∃ p, g.users.find? (fun u => u.id = playerId) = some p ∧
      (makeMove g pos playerId).2.newState =
        some (g.state.set pos.toNat p.symbol.char) ∧
      (g.state.set pos.toNat p.symbol.char).length = 9 ∧
      (g.state.set pos.toNat p.symbol.char).get? pos.toNat =
        some p.symbol.char ∧
      ∀ i, i ≠ pos.toNat →
        (g.state.set pos.toNat p.symbol.char).get? i = g.state.get? i := by
  unfold makeMove at hs ⊢
  by_cases hr : pos < 0 ∨ pos > 8
  · rw [if_pos hr] at hs
    simp at hs
  rw [if_neg hr] at hs ⊢
  by_cases hc : g.state.get? pos.toNat ≠ some '_'
  · rw [if_pos hc] at hs
    simp at hs
  rw [if_neg hc] at hs ⊢
  cases hp : g.users.find? (fun u => u.id = playerId) with
  | none =>
      rw [hp] at hs
      simp at hs
  | some p =>
      rw [hp] at hs
      dsimp only at hs ⊢
      by_cases ht : p.symbol ≠ g.currentPlayer
      · rw [if_pos ht] at hs
        simp at hs
      rw [if_neg ht]
      have hpos : pos.toNat < g.state.length := by
        rw [hLen]
        omega
      refine ⟨p, rfl, rfl, ?_, ?_, ?_⟩
      · rw [List.length_set, hLen]
      · exact List.get?_set_eq_of_lt _ hpos
      · intro i hi
        exact List.get?_set_ne _ _ (Ne.symm hi)

/-- Witness for C9: Alice's opening move at cell 0 on the fresh two-player
room — the returned board is her symbol at cell 0 and the old board
elsewhere. -/
theorem move_writes_single_cell_witness :
    ∃ p, roomAB.users.find? (fun u => u.id = "a") = some p ∧
      (makeMove roomAB 0 "a").2.newState =
        some (roomAB.state.set (Int.toNat 0) p.symbol.char) ∧
      (roomAB.state.set (Int.toNat 0) p.symbol.char).length = 9 ∧
      (roomAB.state.set (Int.toNat 0) p.symbol.char).get? (Int.toNat 0) =
        some p.symbol.char ∧
      ∀ i, i ≠ Int.toNat 0 →
        (roomAB.state.set (Int.toNat 0) p.symbol.char).get? i =
          roomAB.state.get? i :=
  move_writes_single_cell roomAB 0 "a" (by decide) (by decide)

/-- C5 (confirmed, against the spec-modelled `loadFromDatabase`): hydrating
a room from a durable snapshot reproduces exactly the persisted board and
the persisted player list (ids and names in order), and recomputes the turn
from the count of non-empty cells — `X` when the count is even, `O` when it
is odd. -/
theorem hydration_reconstructs (g : Game) (gameId : String)
    (state : List Char) (dbUsers : List (String × String)) :
    (loadFromDatabase g gameId state dbUsers).state = state ∧
    (loadFromDatabase g gameId state dbUsers).users.map
        (fun u => (u.id, u.name)) = dbUsers ∧
    ((loadFromDatabase g gameId state dbUsers).currentPlayer = Symbol.X ↔
      Even (state.countP (fun c => c ≠ '_'))) ∧
    ((loadFromDatabase g gameId state dbUsers).currentPlayer = Symbol.O ↔
      ¬Even (state.countP (fun c => c ≠ '_'))) := by
  refine ⟨rfl, assignSymbols_ids_names 0 dbUsers, ?_, ?_⟩ <;>
    · show (if state.countP (fun c => c ≠ '_') % 2 = 0 then Symbol.X
          else Symbol.O) = _ ↔ _
      rw [Nat.even_iff]
      by_cases hp : state.countP (fun c => c ≠ '_') % 2 = 0 <;> simp [hp]

/-- C1 counterexample: replaying the spec's winning sequence
`X:0, O:3, X:1, O:4, X:2` through the `make-move` handler records the
outcome (`winner = some "X"`), yet Bob's subsequent move at the empty cell 5
succeeds with no error at all — it is not rejected with `GameAlreadyOver`
(or anything else). -/
theorem move_after_game_over_succeeds :
    wonRun.1.winner = some "X" ∧
      (makeMove wonRun.1 5 "b").2.success = true ∧
      (makeMove wonRun.1 5 "b").2.error = none := by
  refine ⟨by decide, by decide, by decide⟩

/-- C1 (corrected, amended): `makeMove` performs no game-over check at all —
no call can fail with `GameAlreadyOver` (its only errors are the four
range/occupancy/player/turn strings), so after the winning sequence
`X:0, O:3, X:1, O:4, X:2` a further move at an empty cell by the player
whose turn it is succeeds instead of failing. -/
theorem no_game_already_over_error (g : Game) (pos : Int)
    (playerId : String) :
    ((makeMove g pos playerId).2.error = none ∨
      (makeMove g pos playerId).2.error = some "Invalid position" ∨
      (makeMove g pos playerId).2.error = some "Position already occupied" ∨
      (makeMove g pos playerId).2.error = some "Player not found" ∨
      (makeMove g pos playerId).2.error = some "Not your turn") ∧
    (makeMove wonRun.1 5 "b").2.success = true := by
  refine ⟨?_, by decide⟩
  unfold makeMove
  split
  · simp
  · split
    · simp
    · split
      · simp
      · split
        · simp
        · simp

/-- C2 counterexample: after the winning sequence the handler has called
`declareResult`, so the store's game row carries `winner = "X"`; yet the
winning player's (Alice, user id `"a"`) cumulative score is still `0`, not
`0 + 1` — and even re-recording the result leaves the whole user table
untouched.  Completing a won game mutates no score at all. -/
theorem win_recorded_but_no_score_change :
    (wonRun.2.games.lookup "gid").map GameRow.winner = some (some "X") ∧
      scoreOf dbAB "a" = some 0 ∧
      scoreOf wonRun.2 "a" = some 0 ∧
      scoreOf wonRun.2 "a" ≠ some 1 ∧
      (declareResult wonRun.1 wonRun.2 "X").2.users = wonRun.2.users := by
  refine ⟨by decide, by decide, by decide, by decide, by decide⟩

/-- `List.lookup` finds the head row when the keys agree. -/
theorem lookup_cons_self {β : Type} (k : String) (b : β)
    (l : List (String × β)) : ((k, b) :: l).lookup k = some b := by
  simp [List.lookup]

/-- `List.lookup` skips the head row when the keys differ. -/
theorem lookup_cons_ne {β : Type} (id k : String) (b : β)
    (l : List (String × β)) (h : ¬id = k) :
    ((k, b) :: l).lookup id = l.lookup id := by
  have hb : (id == k) = false := by
    simp [h]
  simp [List.lookup, hb]

/-- `List.lookup` through a key-preserving single-row update: updating every
row whose key is `tgt` and then looking up `id` is looking up `id` first and
updating the found row when `id = tgt`. -/
theorem lookup_map_update (tgt : String) (new : GameRow) :
    ∀ (l : List (String × GameRow)) (id : String),
      (l.map (fun p => if p.1 = tgt then (p.1, new) else p)).lookup id =
        (l.lookup id).map (fun row => if id = tgt then new else row) := by
  intro l
  induction l with
  | nil =>
      intro id
      rfl
  | cons p rest ih =>
      intro id
      obtain ⟨k, row⟩ := p
      by_cases hg : k = tgt
      · subst hg
        have hmap : (((k, row) :: rest).map
              fun p => if p.1 = k then (p.1, new) else p) =
            (k, new) :: rest.map (fun p => if p.1 = k then (p.1, new) else p) := by
          simp
        by_cases hk : id = k
        · subst hk
          rw [hmap, lookup_cons_self, lookup_cons_self]
          simp
        · rw [hmap, lookup_cons_ne id k new _ hk, lookup_cons_ne id k row _ hk,
            ih]
      · have hmap : (((k, row) :: rest).map
              fun p => if p.1 = tgt then (p.1, new) else p) =
            (k, row) :: rest.map (fun p => if p.1 = tgt then (p.1, new) else p) := by
          simp [hg]
        by_cases hk : id = k
        · subst hk
          rw [hmap, lookup_cons_self, lookup_cons_self]
          simp [hg]
        · rw [hmap, lookup_cons_ne id k row _ hk, lookup_cons_ne id k row _ hk,
            ih]

/-- C2 (corrected, amended): `declareResult` records the outcome — it sets
the room's `winner` and overwrites the matching durable game row with the
current board and the winner — but it performs no score update: the user
table, and hence every player's cumulative score, is left exactly as it
was, for wins and draws alike. -/
theorem declareResult_records_outcome_only (g : Game) (db : DB)
    (w : String) :
    (declareResult g db w).1 = { g with winner := some w } ∧
    (declareResult g db w).2.users = db.users ∧
    ∀ id, (declareResult g db w).2.games.lookup id =
      (db.games.lookup id).map
        (fun row =>
          if id = g.gameId then { state := g.state, winner := some w }
          else row) := by
  refine ⟨rfl, rfl, ?_⟩
  intro id
  exact lookup_map_update g.gameId { state := g.state, winner := some w }
    db.games id

/-- No symbol's character is the empty-cell placeholder. -/
theorem Symbol.char_ne_underscore (sym : Symbol) : sym.char ≠ '_' := by
  cases sym <;> decide

/-- The loop condition holds on a combination whose three cells all carry
one symbol's character. -/
theorem comboHit_of_cells (s : List Char) (t : Nat × Nat × Nat)
    (sym : Symbol) (h1 : s.get? t.1 = some sym.char)
    (h2 : s.get? t.2.1 = some sym.char)
    (h3 : s.get? t.2.2 = some sym.char) : comboHit s t = true := by
  have h1' : s[t.1]? = some sym.char := by simpa using h1
  have h2' : s[t.2.1]? = some sym.char := by simpa using h2
  have h3' : s[t.2.2]? = some sym.char := by simpa using h3
  simp [comboHit, h1', h2', h3', Symbol.char_ne_underscore sym]

/-- The exhaustive behaviour of the `checkWinner` loop on any suffix `L` of
the combination list, over boards whose cells are all `X`/`O`/`_` and whose
length covers every index of `L`: either some combination in `L` is fully
held by a symbol and the loop returns that symbol's one-character string,
or no combination in `L` is held and the loop falls through to the draw
check. -/
theorem checkWinnerAux_spec (s : List Char)
    (hA : ∀ c ∈ s, c = 'X' ∨ c = 'O' ∨ c = '_') :
    ∀ L : List (Nat × Nat × Nat),
      (∀ t ∈ L, t.1 < s.length ∧ t.2.1 < s.length ∧ t.2.2 < s.length) →
      (∃ sym : Symbol, lineIn s L sym ∧
        checkWinnerAux L s = some (String.mk [sym.char])) ∨
      ((¬∃ sym : Symbol, lineIn s L sym) ∧
        checkWinnerAux L s =
          if s.contains '_' then none else some "draw") := by
  intro L
  induction L with
  | nil =>
      intro _
      right
      refine ⟨?_, rfl⟩
      rintro ⟨sym, t, ht, -⟩
      exact absurd ht (List.not_mem_nil t)
  | cons t rest ih =>
      intro hIdx
      have hIdxT := hIdx t (List.mem_cons_self t rest)
      have hIdxRest : ∀ t' ∈ rest,
          t'.1 < s.length ∧ t'.2.1 < s.length ∧ t'.2.2 < s.length :=
        fun t' ht' => hIdx t' (List.mem_cons_of_mem t ht')
      by_cases hh : comboHit s t = true
      · left
        obtain ⟨c, hc⟩ : ∃ c, s.get? t.1 = some c :=
          ⟨_, List.get?_eq_get hIdxT.1⟩
        have hprops : ¬s.get? t.1 = some '_' ∧
            s.get? t.1 = s.get? t.2.1 ∧ s.get? t.2.1 = s.get? t.2.2 := by
          simpa [comboHit] using hh
        have hcne : c ≠ '_' := by
          intro heq
          apply hprops.1
          rw [hc, heq]
        obtain ⟨sym, hsymc⟩ : ∃ sym : Symbol, sym.char = c := by
          rcases hA c (List.get?_mem hc) with h | h | h
          · exact ⟨Symbol.X, by rw [h]; rfl⟩
          · exact ⟨Symbol.O, by rw [h]; rfl⟩
          · exact absurd h hcne
        refine ⟨sym, ⟨t, List.mem_cons_self t rest, ?_, ?_, ?_⟩, ?_⟩
        · rw [hc, hsymc]
        · rw [← hprops.2.1, hc, hsymc]
        · rw [← hprops.2.2, ← hprops.2.1, hc, hsymc]
        · show checkWinnerAux (t :: rest) s = _
          rw [checkWinnerAux, if_pos hh, hc, hsymc]
      · have hstep : checkWinnerAux (t :: rest) s = checkWinnerAux rest s := by
          rw [checkWinnerAux, if_neg hh]
        rcases ih hIdxRest with ⟨sym, hline, heq⟩ | ⟨hno, heq⟩
        · obtain ⟨t', ht', hcells⟩ := hline
          exact Or.inl ⟨sym, ⟨t', List.mem_cons_of_mem t ht', hcells⟩,
            by rw [hstep, heq]⟩
        · right
          refine ⟨?_, by rw [hstep, heq]⟩
          rintro ⟨sym, t', ht', h1, h2, h3⟩
          rcases List.mem_cons.mp ht' with rfl | hmem
          · exact hh (comboHit_of_cells s t' sym h1 h2 h3)
          · exact hno ⟨sym, t', hmem, h1, h2, h3⟩

/-- C6 counterexample: on the board `"XXXOOO___"` the line `(3,4,5)` is
fully held by `O` (three equal non-empty `O` cells), yet `checkWinner`
returns `"X"`, not `"O"` — so "returns Won(s) iff one of the 8 winning
lines holds three equal non-empty cells of symbol s" fails at `s = O`:
the right-hand side holds while the left-hand side does not. -/
theorem checkWinner_two_lines_counterexample :
    winningLine ('X' :: 'X' :: 'X' :: 'O' :: 'O' :: 'O' ::
        '_' :: '_' :: '_' :: []) Symbol.O ∧
      boardWinner ('X' :: 'X' :: 'X' :: 'O' :: 'O' :: 'O' ::
        '_' :: '_' :: '_' :: []) = some "X" ∧
      boardWinner ('X' :: 'X' :: 'X' :: 'O' :: 'O' :: 'O' ::
        '_' :: '_' :: '_' :: []) ≠ some "O" := by
  refine ⟨⟨(3, 4, 5), by decide, by decide, by decide, by decide⟩,
    by decide, by decide⟩

/-- C6 (corrected, amended): on 9-cell boards over the alphabet
`X`/`O`/`_`, `checkWinner` is a total function returning exactly one of
null (in progress), `"X"`, `"O"` (won) or `"draw"`; a returned winner
always holds one of the 8 winning lines; whenever any symbol fully holds a
line the function returns a winner that holds a line (the first matching
line in the fixed row/column/diagonal order — so `Won(s)` for a specific
`s` is guaranteed only when lines of a single symbol match); draw is
returned exactly when no line is held and no empty cell remains; and each
of the 8 lines independently, placed alone on an otherwise empty board,
yields its own symbol as the winner. -/
theorem checkWinner_spec (s : List Char) (hLen : s.length = 9)
    (hA : ∀ c ∈ s, c = 'X' ∨ c = 'O' ∨ c = '_') :
    (boardWinner s = none ∨ boardWinner s = some "X" ∨
      boardWinner s = some "O" ∨ boardWinner s = some "draw") ∧
    (boardWinner s = some "X" → winningLine s Symbol.X) ∧
    (boardWinner s = some "O" → winningLine s Symbol.O) ∧
    ((∃ sym, winningLine s sym) →
      ∃ sym, winningLine s sym ∧
        boardWinner s = some (String.mk [sym.char])) ∧
    (boardWinner s = some "draw" ↔
      (¬∃ sym, winningLine s sym) ∧ '_' ∉ s) ∧
    (∀ t ∈ winningCombinations,
      boardWinner (lineOnlyBoard t Symbol.X) = some "X" ∧
      boardWinner (lineOnlyBoard t Symbol.O) = some "O") := by
  have hIdx : ∀ t ∈ winningCombinations,
      t.1 < s.length ∧ t.2.1 < s.length ∧ t.2.2 < s.length := by
    simp only [hLen]
    decide
  rcases checkWinnerAux_spec s hA winningCombinations hIdx with
    ⟨sym, hline, heq⟩ | ⟨hno, heq⟩
  · have hbw : boardWinner s = some (String.mk [sym.char]) := heq
    refine ⟨?_, ?_, ?_, fun _ => ⟨sym, hline, hbw⟩, ?_, by decide⟩
    · cases sym
      · exact Or.inr (Or.inl (hbw.trans (by decide)))
      · exact Or.inr (Or.inr (Or.inl (hbw.trans (by decide))))
    · intro h
      cases sym
      · exact hline
      · exact absurd (hbw.symm.trans h) (by decide)
    · intro h
      cases sym
      · exact absurd (hbw.symm.trans h) (by decide)
      · exact hline
    · constructor
      · intro h
        cases sym
        · exact absurd (hbw.symm.trans h) (by decide)
        · exact absurd (hbw.symm.trans h) (by decide)
      · rintro ⟨hno', -⟩
        exact absurd ⟨sym, hline⟩ hno'
  · by_cases hct : s.contains '_' = true
    · have hbw : boardWinner s = none := by
        show checkWinnerAux winningCombinations s = none
        rw [heq, if_pos hct]
      have hmem : '_' ∈ s := by
        simpa using hct
      refine ⟨Or.inl hbw, ?_, ?_, ?_, ?_, by decide⟩
      · intro h
        exact absurd (hbw.symm.trans h) (by simp)
      · intro h
        exact absurd (hbw.symm.trans h) (by simp)
      · intro h
        exact absurd h hno
      · constructor
        · intro h
          exact absurd (hbw.symm.trans h) (by simp)
        · rintro ⟨-, hnm⟩
          exact absurd hmem hnm
    · have hbw : boardWinner s = some "draw" := by
        show checkWinnerAux winningCombinations s = some "draw"
        rw [heq, if_neg hct]
      have hnm : '_' ∉ s := by
        simpa using hct
      refine ⟨Or.inr (Or.inr (Or.inr hbw)), ?_, ?_, ?_, ?_, by decide⟩
      · intro h
        exact absurd (hbw.symm.trans h) (by decide)
      · intro h
        exact absurd (hbw.symm.trans h) (by decide)
      · intro h
        exact absurd h hno
      · exact ⟨fun _ => ⟨hno, hnm⟩, fun _ => hbw⟩

/-- Witness for C6's amended theorem: on the concrete full board
`"XOXXOOOXX"` (no line held, no empty cell) the draw characterization
applies and the function indeed returns `"draw"`. -/
theorem checkWinner_spec_witness :
    boardWinner ('X' :: 'O' :: 'X' :: 'X' :: 'O' :: 'O' ::
        'O' :: 'X' :: 'X' :: []) = some "draw" ↔
      (¬∃ sym, winningLine ('X' :: 'O' :: 'X' :: 'X' :: 'O' :: 'O' ::
        'O' :: 'X' :: 'X' :: []) sym) ∧
      '_' ∉ ('X' :: 'O' :: 'X' :: 'X' :: 'O' :: 'O' ::
        'O' :: 'X' :: 'X' :: []) :=
  (checkWinner_spec ('X' :: 'O' :: 'X' :: 'X' :: 'O' :: 'O' ::
    'O' :: 'X' :: 'X' :: []) (by decide) (by decide)).2.2.2.2.1

end TicTacToe
